import Mathlib

/-!
Shallow embedding of the Server_SKG payment-webhook / print-queue server.

The repository contains several near-duplicate server variants:
* `Server.js`, first variant (token-correlated, printAttempts-based poll,
  plain string-equality signature check) — embedded as the `...V1` functions;
* `Server.js`, second variant (simple store, `crypto.timingSafeEqual`
  signature check, poll marks `printed` on delivery) — embedded as the
  `...V2` functions over `BillV2`;
* the hardened variant (`sanitizeTokenNumber` / `validateAmount` /
  `validateItems`) — embedded as `sanitizeTokenNumber`, `validateItems`,
  `createTokenV3`.

JavaScript `Map`s are modelled as insertion-ordered association lists
(`List (String × α)`); `Map.set` replaces in place or appends, matching the
JS iteration-order semantics.  Times (`Date.now()`) are integers (ms);
locale-formatted time/date strings are passed in as opaque parameters.
JS number division by 100 on integer minor-unit amounts is modelled exactly
by `mkRat`.  Truthiness of strings (`x || d`, empty string falsy) is
modelled by `jsOrS`, and the truthiness guard `bill.timestamp && ...` by an
explicit `!= 0` test.
-/

namespace ServerSKG

/-- Lookup in a JS-style map (first entry with the given key). -/
def mapGet {α : Type} : List (String × α) → String → Option α
  | [], _ => none
  | (k, v) :: rest, key => if k = key then some v else mapGet rest key

/-- Model of `Map.prototype.has`. -/
def mapHas {α : Type} (m : List (String × α)) (key : String) : Bool :=
  (mapGet m key).isSome

/-- Model of `Map.prototype.set`: replace in place if the key exists,
otherwise append (JS maps iterate in insertion order). -/
def mapSet {α : Type} : List (String × α) → String → α → List (String × α)
  | [], key, v => [(key, v)]
  | (k, w) :: rest, key, v =>
    if k = key then (k, v) :: rest else (k, w) :: mapSet rest key v

/-- Model of mutating, through an object reference obtained from the map,
the value stored under a key (every entry with that key is rewritten; in
reachable states keys are unique). -/
def mapUpdate {α : Type} : List (String × α) → String → (α → α) → List (String × α)
  | [], _, _ => []
  | (k, w) :: rest, key, f =>
    if k = key then (k, f w) :: mapUpdate rest key f
    else (k, w) :: mapUpdate rest key f

/-- Model of the JS idiom `x || d` on an optional string: `undefined` and
the empty string are falsy. -/
def jsOrS : Option String → String → String
  | none, d => d
  | some s, d => if s = "" then d else s

/-- ASCII model of `String.prototype.toUpperCase()`. -/
def jsToUpper (s : String) : String :=
  String.mk (s.data.map Char.toUpper)

/-- Model of `email.split(Char.ofNat 64)[0]`, that is, the part of the
string before the first at-sign. -/
def emailLocalPart (e : String) : String :=
  String.mk (e.data.takeWhile (fun c => c ≠ '@'))

/-- Bill record stored in `paidBills` by the first `Server.js` variant. -/
structure Bill where
  orderId : String
  paymentId : String
  tokenNumber : String
  amount : ℚ
  items : List String
  method : String
  customerName : String
  customerEmail : String
  customerPhone : String
  time : String
  date : String
  timestamp : ℤ
  printed : Bool
  printAttempts : ℕ
  lastPrintAttempt : Option ℤ
  printConfirmedAt : Option ℤ
deriving DecidableEq

/-- PendingToken record stored in `pendingTokens`.  The JS object gains
`paymentId` / `paidAt` fields when the webhook marks it paid; they are
modelled as `Option` fields that start out `none`. -/
structure PendingToken where
  tokenNumber : String
  amount : ℚ
  items : List String
  createdAt : ℤ
  status : String
  paymentId : Option String
  paidAt : Option ℤ
deriving DecidableEq

/-- The fields of `payload.payload.payment.entity` that the handlers read.
Optional fields model properties that may be absent from the JSON. -/
structure PaymentEntity where
  id : String
  order_id : String
  amount : ℤ
  method : Option String
  email : Option String
  contact : Option String
  notes_token_number : Option String
  notes_customer_name : Option String
  notes_name : Option String
  notes_customer : Option String
deriving DecidableEq

/-- Parsed webhook envelope: the event kind plus the payment entity. -/
structure WebhookPayload where
  event : String
  payment : PaymentEntity
deriving DecidableEq

/-- The two module-level stores of the first `Server.js` variant. -/
structure ServerState where
  pendingTokens : List (String × PendingToken)
  paidBills : List (String × Bill)
deriving DecidableEq

/-- Outcomes of the webhook route (HTTP status + branch taken). -/
inductive WebhookResp where
  | missingSignature
  | invalidSignature
  | parseError
  | ignored
  | duplicate
  | stored
deriving DecidableEq

/- ===== Signature verification models (both variants) ===== -/

/-- Short-circuit character scan underlying JS string equality: returns the
equality verdict together with the number of character comparisons
performed (the scan stops at the first mismatch). -/
def scanEqAux : List Char → List Char → Bool × ℕ
  | [], [] => (true, 0)
  | [], _ :: _ => (false, 0)
  | _ :: _, [] => (false, 0)
  | a :: as, b :: bs =>
    if a = b then
      let r := scanEqAux as bs
      (r.1, r.2 + 1)
    else (false, 1)

/-- Cost model of the first variant's signature check
`receivedSignature !== expectedSignature`: a length check followed by a
short-circuit scan.  The second component counts character comparisons. -/
def verifySignatureV1 (received expected : String) : Bool × ℕ :=
  if received.length = expected.length then scanEqAux received.data expected.data
  else (false, 0)

/-- Full scan underlying `crypto.timingSafeEqual`: every position is
compared regardless of earlier mismatches. -/
def tseAux : List Char → List Char → Bool × ℕ
  | [], [] => (true, 0)
  | [], _ :: _ => (false, 0)
  | _ :: _, [] => (false, 0)
  | a :: as, b :: bs =>
    let r := tseAux as bs
    ((a == b) && r.1, r.2 + 1)

/-- Cost model of `crypto.timingSafeEqual(Buffer.from(a), Buffer.from(b))`:
`none` models the `RangeError` thrown on buffers of different length;
otherwise the verdict plus the number of comparisons (always the full
length). -/
def timingSafeEqual (a b : List Char) : Option (Bool × ℕ) :=
  if a.length = b.length then some (tseAux a b) else none

/- ===== Webhook ingestion, first Server.js variant ===== -/

/-- The Bill object built by the first variant's webhook handler
(`paidBills.set(payment.id, {...})`, Server.js lines 127-148). -/
def mkBillV1 (p : PaymentEntity) (tokenNumber : String)
    (tokenData : Option PendingToken) (now : ℤ) (timeStr dateStr : String) : Bill :=
  { orderId := p.order_id
    paymentId := p.id
    tokenNumber := tokenNumber
    amount := mkRat p.amount 100
    items := (tokenData.map PendingToken.items).getD []
    method := jsOrS (p.method.map jsToUpper) "ONLINE"
    customerName :=
      jsOrS p.notes_customer_name
        (jsOrS (p.email.map emailLocalPart) "Guest")
    customerEmail := jsOrS p.email ""
    customerPhone := jsOrS p.contact ""
    time := timeStr
    date := dateStr
    timestamp := now
    printed := false
    printAttempts := 0
    lastPrintAttempt := none
    printConfirmedAt := none }

/-- Post-verification body of the first variant's webhook handler for a
`payment.captured` event: duplicate check, Bill insertion, and marking a
matching PendingToken paid (Server.js lines 115-165). -/
def ingestV1 (st : ServerState) (p : PaymentEntity) (now : ℤ)
    (timeStr dateStr : String) : ServerState × WebhookResp :=
  let tokenNumber := jsOrS p.notes_token_number "Unknown"
  if mapHas st.paidBills p.id then (st, .duplicate)
  else
    let tokenData := mapGet st.pendingTokens tokenNumber
    let bill := mkBillV1 p tokenNumber tokenData now timeStr dateStr
    let bills := mapSet st.paidBills p.id bill
    let tokens :=
      match tokenData with
      | none => st.pendingTokens
      | some _ =>
        mapUpdate st.pendingTokens tokenNumber
          (fun t => { t with status := "paid", paymentId := some p.id, paidAt := some now })
    ({ pendingTokens := tokens, paidBills := bills }, .stored)

/-- The first variant's complete webhook route: signature-header presence,
HMAC-SHA256 over the exact raw body (the HMAC itself is an opaque
parameter), plain string comparison, JSON parse, event filter, ingestion.
Every rejection leaves the state untouched. -/
def webhookV1 (hmac : String → String → String) (secret : String)
    (sigHeader : Option String) (rawBody : String)
    (parse : String → Option WebhookPayload)
    (st : ServerState) (now : ℤ) (timeStr dateStr : String) :
    ServerState × WebhookResp :=
  match sigHeader with
  | none => (st, .missingSignature)
  | some receivedSignature =>
    let expectedSignature := hmac secret rawBody
    if (verifySignatureV1 receivedSignature expectedSignature).1 = false then
      (st, .invalidSignature)
    else
      match parse rawBody with
      | none => (st, .parseError)
      | some payload =>
        if payload.event ≠ "payment.captured" then (st, .ignored)
        else ingestV1 st payload.payment now timeStr dateStr

/- ===== Poll (GET /api/latest-paid-bill), first variant ===== -/

/-- Retention window of the first variant's lazy cleanup (2 hours, ms). -/
def TWO_HOURS_MS : ℤ := 2 * 60 * 60 * 1000

/-- Retention window of the second variant's lazy cleanup (1 hour, ms). -/
def ONE_HOUR_MS : ℤ := 60 * 60 * 1000

/-- Retention window of the pending-token listing eviction (24 hours). -/
def TWENTY_FOUR_HOURS_MS : ℤ := 24 * 60 * 60 * 1000

/-- The deletion condition `bill.timestamp && bill.timestamp < cutoff`
(a zero timestamp is falsy in JS and is skipped). -/
def evictable (b : Bill) (cutoff : ℤ) : Bool :=
  b.timestamp != 0 && decide (b.timestamp < cutoff)

/-- Lazy eviction pass over the bill store. -/
def cleanupBills (bills : List (String × Bill)) (cutoff : ℤ) :
    List (String × Bill) :=
  bills.filter (fun kb => ! evictable kb.2 cutoff)

/-- Stable insertion into a list sorted by ascending timestamp.  An element
is placed before the first strictly-later-or-equal... it is placed before
the first element it is `≤`, so that among equal timestamps the original
order is kept. -/
def insertByTimestamp (x : String × Bill) :
    List (String × Bill) → List (String × Bill)
  | [] => [x]
  | y :: ys =>
    if x.2.timestamp ≤ y.2.timestamp then x :: y :: ys
    else y :: insertByTimestamp x ys

/-- Stable ascending sort by `timestamp`, modelling the JS stable
`Array.prototype.sort((a, b) => a.timestamp - b.timestamp)`. -/
def sortBills : List (String × Bill) → List (String × Bill)
  | [] => []
  | x :: xs => insertByTimestamp x (sortBills xs)

/-- The in-place mutation performed on the selected bill by the first
variant's poll: increment `printAttempts`, stamp `lastPrintAttempt`. -/
def bumpBill (b : Bill) (now : ℤ) : Bill :=
  { b with printAttempts := b.printAttempts + 1, lastPrintAttempt := some now }

/-- Poll outcome: a delivered bill (HTTP 200 with its projection) or the
explicit empty signal (HTTP 204, not an error). -/
inductive PollOut where
  | delivered (bill : Bill)
  | noContent
deriving DecidableEq

/-- GET /api/latest-paid-bill, first variant (Server.js lines 291-374):
lazy 2-hour eviction, stable oldest-first selection among unprinted bills,
attempt-counter bump — the `printed` flag is not touched.  Keys stay
attached to the bills so that the in-place mutation of the selected object
can be written back to its map entry. -/
def pollV1 (st : ServerState) (now : ℤ) : ServerState × PollOut :=
  let cleaned := cleanupBills st.paidBills (now - TWO_HOURS_MS)
  let unprintedBills := sortBills (cleaned.filter (fun kb => ! kb.2.printed))
  match unprintedBills.head? with
  | none => ({ st with paidBills := cleaned }, .noContent)
  | some sel =>
    let updated := bumpBill sel.2 now
    ({ st with paidBills := mapUpdate cleaned sel.1 (fun _ => updated) },
     .delivered updated)

/-- JSON value model for the poll response body. -/
inductive JVal where
  | str (s : String)
  | num (q : ℚ)
  | int (n : ℤ)
  | bool (b : Bool)
  | arr (items : List String)
deriving DecidableEq

/-- The `responseData` object of the first variant's poll handler
(Server.js lines 348-364), field for field. -/
def buildResponseV1 (bill : Bill) (serverTime : String)
    (serverTimestamp : ℤ) : List (String × JVal) :=
  [("orderId", .str bill.orderId),
   ("paymentId", .str bill.paymentId),
   ("tokenNumber", .str bill.tokenNumber),
   ("amount", .num bill.amount),
   ("items", .arr bill.items),
   ("method", .str bill.method),
   ("customerName", .str bill.customerName),
   ("customerEmail", .str bill.customerEmail),
   ("customerPhone", .str bill.customerPhone),
   ("time", .str bill.time),
   ("date", .str bill.date),
   ("timestamp", .int bill.timestamp),
   ("printed", .bool bill.printed),
   ("serverTime", .str serverTime),
   ("serverTimestamp", .int serverTimestamp)]

/- ===== Confirm (POST /api/confirm-print) ===== -/

/-- Number of unprinted bills,
`Array.from(paidBills.values()).filter(b => !b.printed).length`. -/
def countUnprinted (bills : List (String × Bill)) : ℕ :=
  (bills.filter (fun kb => ! kb.2.printed)).length

/-- Confirm-print outcome. -/
inductive ConfirmResp where
  | missingPaymentId
  | notFound
  | ok (unprintedBills : ℕ)
deriving DecidableEq

/-- POST /api/confirm-print (Server.js lines 379-425): sets `printed` and
unconditionally restamps `printConfirmedAt`, then reports the remaining
unprinted count. -/
def confirmPrint (st : ServerState) (paymentId : Option String) (now : ℤ) :
    ServerState × ConfirmResp :=
  if paymentId = none ∨ paymentId = some "" then (st, .missingPaymentId)
  else
    let pid := paymentId.getD ""
    match mapGet st.paidBills pid with
    | none => (st, .notFound)
    | some _ =>
      let bills := mapUpdate st.paidBills pid
        (fun b => { b with printed := true, printConfirmedAt := some now })
      ({ st with paidBills := bills }, .ok (countUnprinted bills))

/- ===== Token registration / listing / order creation ===== -/

/-- Create-token outcome. -/
inductive CreateTokenResp where
  | missingFields
  | success (token_number : String) (amount : ℚ)
  | serverError
deriving DecidableEq

/-- POST /api/create-token, first variant (Server.js lines 181-224): only
presence (truthiness) checks, then an unconditional `pendingTokens.set`
with the raw token number. -/
def createTokenV1 (st : ServerState) (token_number : String) (amount : ℚ)
    (items : Option (List String)) (now : ℤ) : ServerState × CreateTokenResp :=
  if token_number = "" ∨ amount = 0 then (st, .missingFields)
  else
    ({ st with
        pendingTokens := mapSet st.pendingTokens token_number
          { tokenNumber := token_number, amount := amount,
            items := items.getD [], createdAt := now,
            status := "pending", paymentId := none, paidAt := none } },
     .success token_number amount)

/-- GET /api/pending-tokens (Server.js lines 226-243): evict tokens older
than 24 hours, then list the still-pending ones. -/
def listPendingTokens (st : ServerState) (now : ℤ) :
    ServerState × List (String × ℚ × List String) :=
  let kept := st.pendingTokens.filter
    (fun kt => ! decide (now - kt.2.createdAt > TWENTY_FOUR_HOURS_MS))
  let tokens := (kept.filter (fun kt => kt.2.status == "pending")).map
    (fun kt => (kt.2.tokenNumber, kt.2.amount, kt.2.items))
  ({ st with pendingTokens := kept }, tokens)

/-- Create-order outcome (the actual gateway call is external). -/
inductive CreateOrderResp where
  | tokenNotFound
  | tokenAlreadyPaid
  | orderRequested (amountMinorUnits : ℤ) (token_number : String)
deriving DecidableEq

/-- POST /api/create-order (Server.js lines 245-286): reads the token and
issues an outbound gateway request; the stores are never mutated. -/
def createOrderV1 (st : ServerState) (token_number : String) :
    ServerState × CreateOrderResp :=
  match mapGet st.pendingTokens token_number with
  | none => (st, .tokenNotFound)
  | some token =>
    if token.status ≠ "pending" then (st, .tokenAlreadyPaid)
    else (st, .orderRequested (round (token.amount * 100)) token_number)

/- ===== Hardened variant (part_003) sanitizers and registration ===== -/

/-- sanitizeTokenNumber (part_003 line 148):
`String(token).replace(/[^a-zA-Z0-9]/g, '').substring(0, 20)`. -/
def sanitizeTokenNumber (token : String) : String :=
  String.mk ((token.data.filter Char.isAlphanum).take 20)

/-- validateItems (part_003 line 160): non-arrays become `[]` (modelled by
`none`); at most 100 items, each truncated to 50 characters. -/
def validateItems (items : Option (List String)) : List String :=
  match items with
  | none => []
  | some l => (l.take 100).map (fun item => String.mk (item.data.take 50))

/-- POST /api/create-token, hardened variant (part_003 lines 346-382):
presence checks, then sanitize / validateAmount (throwing, i.e. 500 with no
mutation, outside (0, 1000000]) / validateItems, then the store write. -/
def createTokenV3 (st : ServerState) (token_number : String) (amount : ℚ)
    (items : Option (List String)) (now : ℤ) : ServerState × CreateTokenResp :=
  if token_number = "" ∨ amount = 0 then (st, .missingFields)
  else
    let sanitizedToken := sanitizeTokenNumber token_number
    if amount ≤ 0 ∨ amount > 1000000 then (st, .serverError)
    else
      let validatedItems := validateItems items
      ({ st with
          pendingTokens := mapSet st.pendingTokens sanitizedToken
            { tokenNumber := sanitizedToken, amount := amount,
              items := validatedItems, createdAt := now,
              status := "pending", paymentId := none, paidAt := none } },
       .success sanitizedToken amount)

/- ===== Second Server.js variant (simple store, mark-printed-on-poll) ===== -/

/-- Bill record of the second `Server.js` variant (no attempt counter). -/
structure BillV2 where
  orderId : String
  paymentId : String
  amount : ℚ
  method : String
  customerName : String
  time : String
  timestamp : ℤ
  printed : Bool
deriving DecidableEq

/-- Deletion condition of the second variant's 1-hour cleanup. -/
def evictableV2 (b : BillV2) (cutoff : ℤ) : Bool :=
  b.timestamp != 0 && decide (b.timestamp < cutoff)

/-- Lazy eviction pass of the second variant. -/
def cleanupBillsV2 (bills : List (String × BillV2)) (cutoff : ℤ) :
    List (String × BillV2) :=
  bills.filter (fun kb => ! evictableV2 kb.2 cutoff)

/-- Post-verification body of the second variant's webhook (Server.js
lines 638-672). -/
def ingestV2 (bills : List (String × BillV2)) (p : PaymentEntity) (now : ℤ)
    (timeStr : String) : List (String × BillV2) × WebhookResp :=
  if mapHas bills p.id then (bills, .duplicate)
  else
    let customerName :=
      jsOrS p.notes_name (jsOrS p.notes_customer_name (jsOrS p.notes_customer "Guest"))
    (mapSet bills p.id
      { orderId := p.order_id, paymentId := p.id, amount := mkRat p.amount 100,
        method := jsToUpper (p.method.getD ""), customerName := customerName,
        time := timeStr, timestamp := now, printed := false }, .stored)

/-- The second variant's webhook route (Server.js lines 607-678): a missing
header or a length mismatch makes `timingSafeEqual` throw, which the catch
block reports as a 400 with no state change; otherwise constant-time
comparison, parse, event filter, ingestion. -/
def webhookV2 (hmac : String → String → String) (secret : String)
    (sigHeader : Option String) (rawBody : String)
    (parse : String → Option WebhookPayload)
    (bills : List (String × BillV2)) (now : ℤ) (timeStr : String) :
    List (String × BillV2) × WebhookResp :=
  match sigHeader with
  | none => (bills, .parseError)
  | some receivedSignature =>
    let expectedSignature := hmac secret rawBody
    match timingSafeEqual receivedSignature.data expectedSignature.data with
    | none => (bills, .parseError)
    | some r =>
      if r.1 = false then (bills, .invalidSignature)
      else
        match parse rawBody with
        | none => (bills, .parseError)
        | some payload =>
          if payload.event ≠ "payment.captured" then (bills, .ignored)
          else ingestV2 bills payload.payment now timeStr

/-- Poll outcome for the second variant. -/
inductive PollOutV2 where
  | delivered (bill : BillV2)
  | noContent
deriving DecidableEq

/-- GET /api/latest-paid-bill, second variant (Server.js lines 683-705):
1-hour lazy eviction, then the first unprinted bill in insertion order is
marked `printed = true` and returned (the serialized object already carries
`printed: true`). -/
def pollV2 (bills : List (String × BillV2)) (now : ℤ) :
    List (String × BillV2) × PollOutV2 :=
  let cleaned := cleanupBillsV2 bills (now - ONE_HOUR_MS)
  match cleaned.find? (fun kb => ! kb.2.printed) with
  | none => (cleaned, .noContent)
  | some sel =>
    let updated := { sel.2 with printed := true }
    (mapUpdate cleaned sel.1 (fun _ => updated), .delivered updated)

/- ===== Derived helpers used by the verification ===== -/

/-- Number of entries stored under a given key (1 means exactly one Bill). -/
def countKey {α : Type} (m : List (String × α)) (k : String) : ℕ :=
  (m.filter (fun kv => kv.1 == k)).length

/-- One webhook delivery of a fixed captured payment (state part only). -/
def webhookDeliver (p : PaymentEntity) (now : ℤ) (timeStr dateStr : String)
    (st : ServerState) : ServerState :=
  (ingestV1 st p now timeStr dateStr).1

/-- N repeated webhook deliveries of the identical captured payment. -/
def deliverTimes (p : PaymentEntity) (now : ℤ) (timeStr dateStr : String) :
    ℕ → ServerState → ServerState
  | 0, st => st
  | n + 1, st => deliverTimes p now timeStr dateStr n (webhookDeliver p now timeStr dateStr st)

/-- First-in-insertion-order minimum-timestamp entry; the head of the
stable ascending sort. -/
def firstMinBill : List (String × Bill) → Option (String × Bill)
  | [] => none
  | x :: xs =>
    match firstMinBill xs with
    | none => some x
    | some m => if x.2.timestamp ≤ m.2.timestamp then some x else some m

/- ===== Lemmas about the JS-map model ===== -/

theorem mapGet_eq_none_iff {α : Type} (m : List (String × α)) (k : String) :
    mapGet m k = none ↔ ∀ kv ∈ m, kv.1 ≠ k := by
  induction m with
  | nil => simp [mapGet]
  | cons kv rest ih =>
    obtain ⟨k₁, w⟩ := kv
    by_cases h : k₁ = k
    · simp [mapGet, h]
    · simp [mapGet, h, ih]

theorem mapGet_mapSet_self {α : Type} (m : List (String × α)) (k : String) (v : α) :
    mapGet (mapSet m k v) k = some v := by
  induction m with
  | nil => simp [mapSet, mapGet]
  | cons kv rest ih =>
    obtain ⟨k₁, w⟩ := kv
    by_cases h : k₁ = k
    · simp [mapSet, h, mapGet]
    · simp [mapSet, h, mapGet, ih]

theorem mapGet_mapSet_ne {α : Type} (m : List (String × α)) (k k' : String) (v : α)
    (h : k' ≠ k) : mapGet (mapSet m k v) k' = mapGet m k' := by
  have hk : k ≠ k' := fun hh => h hh.symm
  induction m with
  | nil => simp [mapSet, mapGet, hk]
  | cons kv rest ih =>
    obtain ⟨k₁, w⟩ := kv
    by_cases h₁ : k₁ = k
    · subst h₁
      simp [mapSet, mapGet, hk]
    · by_cases h₂ : k₁ = k'
      · simp [mapSet, mapGet, h, h₁, h₂]
      · simp [mapSet, mapGet, h₁, h₂, ih]

theorem mapGet_mapUpdate {α : Type} (m : List (String × α)) (key k : String) (f : α → α) :
    mapGet (mapUpdate m key f) k =
      if k = key then (mapGet m k).map f else mapGet m k := by
  induction m with
  | nil => by_cases h : k = key <;> simp [mapUpdate, mapGet, h]
  | cons kv rest ih =>
    obtain ⟨k₁, w⟩ := kv
    by_cases h₁ : k₁ = key
    · subst h₁
      by_cases h₂ : k₁ = k
      · subst h₂
        simp [mapUpdate, mapGet, ih]
      · have hk : ¬ k = k₁ := fun hh => h₂ hh.symm
        simp [mapUpdate, mapGet, h₂, hk, ih]
    · by_cases h₂ : k₁ = k
      · subst h₂
        have hk : ¬ k₁ = key := h₁
        simp [mapUpdate, mapGet, hk, h₁]
      · simp [mapUpdate, mapGet, h₁, h₂, ih]

theorem mapUpdate_mapUpdate {α : Type} (m : List (String × α)) (key : String)
    (f g : α → α) :
    mapUpdate (mapUpdate m key f) key g = mapUpdate m key (fun v => g (f v)) := by
  induction m with
  | nil => simp [mapUpdate]
  | cons kv rest ih =>
    obtain ⟨k₁, w⟩ := kv
    by_cases h : k₁ = key
    · simp [mapUpdate, h, ih]
    · simp [mapUpdate, h, ih]

theorem mapUpdate_eq_map {α : Type} (m : List (String × α)) (key : String) (f : α → α) :
    mapUpdate m key f = m.map (fun kv => if kv.1 = key then (kv.1, f kv.2) else kv) := by
  induction m with
  | nil => simp [mapUpdate]
  | cons kv rest ih =>
    obtain ⟨k₁, w⟩ := kv
    by_cases h : k₁ = key
    · simp [mapUpdate, h, ih]
    · simp [mapUpdate, h, ih]

theorem mapSet_of_fresh {α : Type} (m : List (String × α)) (k : String) (v : α)
    (h : mapGet m k = none) : mapSet m k v = m ++ [(k, v)] := by
  induction m with
  | nil => simp [mapSet]
  | cons kv rest ih =>
    obtain ⟨k₁, w⟩ := kv
    simp only [mapGet] at h
    by_cases h₁ : k₁ = k
    · simp [h₁] at h
    · simp only [mapSet, if_neg h₁, List.cons_append, List.cons.injEq, true_and]
      exact ih (by simpa [h₁] using h)

theorem countKey_eq_zero {α : Type} (m : List (String × α)) (k : String)
    (h : mapGet m k = none) : countKey m k = 0 := by
  have hall := (mapGet_eq_none_iff m k).mp h
  simp only [countKey, List.length_eq_zero, List.filter_eq_nil_iff]
  intro kv hm
  simpa using hall kv hm

theorem countKey_append {α : Type} (m₁ m₂ : List (String × α)) (k : String) :
    countKey (m₁ ++ m₂) k = countKey m₁ k + countKey m₂ k := by
  simp [countKey, List.filter_append]

theorem mapGet_of_mem_of_nodup {α : Type} (m : List (String × α)) (k : String) (v : α)
    (hmem : (k, v) ∈ m) (hnodup : (m.map Prod.fst).Nodup) : mapGet m k = some v := by
  induction m with
  | nil => cases hmem
  | cons kv rest ih =>
    obtain ⟨k₁, w⟩ := kv
    simp only [List.map_cons, List.nodup_cons] at hnodup
    rcases List.mem_cons.mp hmem with h | h
    · cases h
      simp [mapGet]
    · have hk : k₁ ≠ k := by
        intro hkk
        subst hkk
        exact hnodup.1 (List.mem_map.mpr ⟨(k₁, v), h, rfl⟩)
      simp [mapGet, hk, ih h hnodup.2]

theorem mapGet_filter_of_nodup {α : Type} (m : List (String × α)) (k : String)
    (p : String × α → Bool) (hnodup : (m.map Prod.fst).Nodup) :
    mapGet (m.filter p) k =
      (mapGet m k).bind (fun v => if p (k, v) then some v else none) := by
  induction m with
  | nil => simp [mapGet]
  | cons kv rest ih =>
    obtain ⟨k₁, w⟩ := kv
    simp only [List.map_cons, List.nodup_cons] at hnodup
    by_cases h₁ : k₁ = k
    · subst h₁
      have hrest : mapGet rest k₁ = none := by
        rw [mapGet_eq_none_iff]
        intro kv hm hk
        exact hnodup.1 (List.mem_map.mpr ⟨kv, hm, hk⟩)
      by_cases hp : p (k₁, w)
      · simp [List.filter_cons, hp, mapGet]
      · simp only [List.filter_cons, if_neg hp]
        rw [ih hnodup.2, hrest]
        simp [mapGet, hp]
    · by_cases hp : p (k₁, w)
      · simp only [List.filter_cons, if_pos hp, mapGet, if_neg h₁]
        exact ih hnodup.2
      · simp only [List.filter_cons, if_neg hp, mapGet, if_neg h₁]
        exact ih hnodup.2

/- ===== Lemmas about the stable oldest-first selection ===== -/

theorem sortBills_head? (l : List (String × Bill)) :
    (sortBills l).head? = firstMinBill l := by
  induction l with
  | nil => rfl
  | cons x xs ih =>
    simp only [sortBills, firstMinBill]
    cases hs : sortBills xs with
    | nil =>
      have hfm : firstMinBill xs = none := by rw [← ih, hs]; rfl
      rw [hfm]
      simp [insertByTimestamp]
    | cons y ys =>
      have hfm : firstMinBill xs = some y := by rw [← ih, hs]; rfl
      rw [hfm]
      by_cases h : x.2.timestamp ≤ y.2.timestamp
      · simp [insertByTimestamp, h]
      · simp [insertByTimestamp, h]

theorem firstMinBill_eq_none_iff (l : List (String × Bill)) :
    firstMinBill l = none ↔ l = [] := by
  cases l with
  | nil => simp [firstMinBill]
  | cons x xs =>
    simp only [firstMinBill]
    cases hfm : firstMinBill xs with
    | none => simp
    | some m =>
      by_cases h : x.2.timestamp ≤ m.2.timestamp <;> simp [h]

theorem firstMinBill_le (l : List (String × Bill)) (m : String × Bill)
    (h : firstMinBill l = some m) : ∀ x ∈ l, m.2.timestamp ≤ x.2.timestamp := by
  induction l generalizing m with
  | nil => cases h
  | cons x xs ih =>
    cases hfm : firstMinBill xs with
    | none =>
      simp only [firstMinBill, hfm] at h
      obtain rfl : x = m := by injection h
      have hxs : xs = [] := (firstMinBill_eq_none_iff xs).mp hfm
      subst hxs
      intro y hy
      simp only [List.mem_singleton] at hy
      subst hy
      exact le_refl _
    | some m0 =>
      simp only [firstMinBill, hfm] at h
      by_cases hle : x.2.timestamp ≤ m0.2.timestamp
      · rw [if_pos hle] at h
        obtain rfl : x = m := by injection h
        intro y hy
        rcases List.mem_cons.mp hy with rfl | hy
        · exact le_refl _
        · exact le_trans hle (ih m0 hfm y hy)
      · rw [if_neg hle] at h
        obtain rfl : m0 = m := by injection h
        intro y hy
        rcases List.mem_cons.mp hy with rfl | hy
        · exact le_of_lt (lt_of_not_le hle)
        · exact ih m0 hfm y hy

theorem firstMinBill_decomp (l : List (String × Bill)) (m : String × Bill)
    (h : firstMinBill l = some m) :
    ∃ pre suf, l = pre ++ m :: suf ∧
      (∀ x ∈ pre, m.2.timestamp < x.2.timestamp) ∧
      (∀ x ∈ suf, m.2.timestamp ≤ x.2.timestamp) := by
  induction l generalizing m with
  | nil => cases h
  | cons x xs ih =>
    cases hfm : firstMinBill xs with
    | none =>
      simp only [firstMinBill, hfm] at h
      obtain rfl : x = m := by injection h
      have hxs : xs = [] := (firstMinBill_eq_none_iff xs).mp hfm
      subst hxs
      exact ⟨[], [], rfl, by simp, by simp⟩
    | some m0 =>
      simp only [firstMinBill, hfm] at h
      by_cases hle : x.2.timestamp ≤ m0.2.timestamp
      · rw [if_pos hle] at h
        obtain rfl : x = m := by injection h
        refine ⟨[], xs, rfl, by simp, ?_⟩
        intro y hy
        exact le_trans hle (firstMinBill_le xs m0 hfm y hy)
      · rw [if_neg hle] at h
        obtain rfl : m0 = m := by injection h
        obtain ⟨pre, suf, hsplit, hpre, hsuf⟩ := ih _ hfm
        refine ⟨x :: pre, suf, by rw [hsplit]; rfl, ?_, hsuf⟩
        intro y hy
        rcases List.mem_cons.mp hy with rfl | hy
        · exact lt_of_not_le hle
        · exact hpre y hy

theorem firstMinBill_mem (l : List (String × Bill)) (m : String × Bill)
    (h : firstMinBill l = some m) : m ∈ l := by
  obtain ⟨pre, suf, hsplit, -, -⟩ := firstMinBill_decomp l m h
  rw [hsplit]
  exact List.mem_append.mpr (Or.inr (List.mem_cons_self _ _))

/-- Shape relation preserved by the attempt-counter bump: same key, same
timestamp, same printed flag. -/
def BillShape (a b : String × Bill) : Prop :=
  a.1 = b.1 ∧ a.2.timestamp = b.2.timestamp ∧ a.2.printed = b.2.printed

theorem forall₂_of_map {l : List (String × Bill)}
    (g : String × Bill → String × Bill) (h : ∀ x ∈ l, BillShape x (g x)) :
    List.Forall₂ BillShape l (l.map g) := by
  induction l with
  | nil => simp
  | cons x xs ih =>
    simp only [List.map_cons]
    exact List.Forall₂.cons (h x (List.mem_cons_self _ _))
      (ih (fun y hy => h y (List.mem_cons_of_mem _ hy)))

theorem forall₂_filter_unprinted {l l' : List (String × Bill)}
    (h : List.Forall₂ BillShape l l') :
    List.Forall₂ BillShape (l.filter (fun kb => ! kb.2.printed))
      (l'.filter (fun kb => ! kb.2.printed)) := by
  induction h with
  | nil => simp
  | cons hR hF ih =>
    rename_i x y xs ys
    obtain ⟨hk, hts, hp⟩ := hR
    by_cases hb : x.2.printed
    · simp only [List.filter_cons, hb, ← hp]
      simpa [hb] using ih
    · have hb' : y.2.printed = false := by rw [← hp]; simpa using hb
      simp only [List.filter_cons]
      rw [show (! x.2.printed) = true by simpa using hb,
        show (! y.2.printed) = true by simp [hb']]
      exact List.Forall₂.cons ⟨hk, hts, hp⟩ ih

theorem forall₂_firstMin {l l' : List (String × Bill)}
    (h : List.Forall₂ BillShape l l') (a : String × Bill)
    (ha : firstMinBill l = some a) :
    ∃ b, firstMinBill l' = some b ∧ BillShape a b := by
  induction h generalizing a with
  | nil => cases ha
  | cons hR hF ih =>
    rename_i x y xs ys
    cases hfm : firstMinBill xs with
    | none =>
      simp only [firstMinBill, hfm] at ha
      obtain rfl : x = a := by injection ha
      have hxs : xs = [] := (firstMinBill_eq_none_iff xs).mp hfm
      subst hxs
      cases hF
      exact ⟨y, rfl, hR⟩
    | some mx =>
      simp only [firstMinBill, hfm] at ha
      obtain ⟨my, hmy, hshape⟩ := ih mx hfm
      by_cases hle : x.2.timestamp ≤ mx.2.timestamp
      · rw [if_pos hle] at ha
        obtain rfl : x = a := by injection ha
        have hle' : y.2.timestamp ≤ my.2.timestamp := by
          rw [← hR.2.1, ← hshape.2.1]; exact hle
        exact ⟨y, by simp only [firstMinBill, hmy]; rw [if_pos hle'], hR⟩
      · rw [if_neg hle] at ha
        obtain rfl : mx = a := by injection ha
        have hle' : ¬ y.2.timestamp ≤ my.2.timestamp := by
          rw [← hR.2.1, ← hshape.2.1]; exact hle
        exact ⟨my, by simp only [firstMinBill, hmy]; rw [if_neg hle'], hshape⟩

/- ===== Lemmas about the poll operations ===== -/

theorem cleanupBills_mem (bills : List (String × Bill)) (cutoff : ℤ) (kb : String × Bill) :
    kb ∈ cleanupBills bills cutoff ↔ kb ∈ bills ∧ evictable kb.2 cutoff = false := by
  simp [cleanupBills, List.mem_filter]

theorem cleanupBills_eq_self (bills : List (String × Bill)) (cutoff : ℤ)
    (h : ∀ kb ∈ bills, evictable kb.2 cutoff = false) :
    cleanupBills bills cutoff = bills :=
  List.filter_eq_self.mpr (fun kb hkb => by simp [h kb hkb])

theorem pollV1_delivered_intro (st : ServerState) (now : ℤ) (sel : String × Bill)
    (hsel : firstMinBill ((cleanupBills st.paidBills (now - TWO_HOURS_MS)).filter
      (fun kb => ! kb.2.printed)) = some sel) :
    pollV1 st now =
      ({ st with paidBills := mapUpdate (cleanupBills st.paidBills (now - TWO_HOURS_MS)) sel.1 (fun _ => bumpBill sel.2 now) },
       .delivered (bumpBill sel.2 now)) := by
  simp only [pollV1]
  rw [sortBills_head?, hsel]

theorem pollV1_noContent_intro (st : ServerState) (now : ℤ)
    (hsel : (cleanupBills st.paidBills (now - TWO_HOURS_MS)).filter
      (fun kb => ! kb.2.printed) = []) :
    pollV1 st now =
      ({ st with paidBills := cleanupBills st.paidBills (now - TWO_HOURS_MS) },
       .noContent) := by
  simp only [pollV1]
  rw [hsel]
  rfl

theorem pollV1_delivered_elim (st : ServerState) (now : ℤ) (st' : ServerState) (b : Bill)
    (h : pollV1 st now = (st', .delivered b)) :
    ∃ sel,
      firstMinBill ((cleanupBills st.paidBills (now - TWO_HOURS_MS)).filter
        (fun kb => ! kb.2.printed)) = some sel ∧
      b = bumpBill sel.2 now ∧
      st' = { st with paidBills := mapUpdate (cleanupBills st.paidBills (now - TWO_HOURS_MS)) sel.1 (fun _ => bumpBill sel.2 now) } := by
  cases hsel : firstMinBill ((cleanupBills st.paidBills (now - TWO_HOURS_MS)).filter
      (fun kb => ! kb.2.printed)) with
  | none =>
    have hnil := (firstMinBill_eq_none_iff _).mp hsel
    rw [pollV1_noContent_intro st now hnil] at h
    injection h with h1 h2
    cases h2
  | some sel =>
    rw [pollV1_delivered_intro st now sel hsel] at h
    injection h with h1 h2
    injection h2 with h3
    exact ⟨sel, rfl, h3.symm, h1.symm⟩

theorem pollV1_pendingTokens (st : ServerState) (now : ℤ) :
    (pollV1 st now).1.pendingTokens = st.pendingTokens := by
  simp only [pollV1]
  cases ((sortBills ((cleanupBills st.paidBills (now - TWO_HOURS_MS)).filter
      (fun kb => ! kb.2.printed))).head?) <;> rfl

theorem cleanupBillsV2_mem (bills : List (String × BillV2)) (cutoff : ℤ)
    (kb : String × BillV2) :
    kb ∈ cleanupBillsV2 bills cutoff ↔ kb ∈ bills ∧ evictableV2 kb.2 cutoff = false := by
  simp [cleanupBillsV2, List.mem_filter]

theorem pollV2_delivered_intro (bills : List (String × BillV2)) (now : ℤ)
    (sel : String × BillV2)
    (hsel : (cleanupBillsV2 bills (now - ONE_HOUR_MS)).find?
      (fun kb => ! kb.2.printed) = some sel) :
    pollV2 bills now =
      (mapUpdate (cleanupBillsV2 bills (now - ONE_HOUR_MS)) sel.1
        (fun _ => { sel.2 with printed := true }),
       .delivered { sel.2 with printed := true }) := by
  simp only [pollV2]
  rw [hsel]

theorem pollV2_noContent_intro (bills : List (String × BillV2)) (now : ℤ)
    (hsel : (cleanupBillsV2 bills (now - ONE_HOUR_MS)).find?
      (fun kb => ! kb.2.printed) = none) :
    pollV2 bills now = (cleanupBillsV2 bills (now - ONE_HOUR_MS), .noContent) := by
  simp only [pollV2]
  rw [hsel]

theorem pollV2_delivered_elim (bills : List (String × BillV2)) (now : ℤ)
    (bills' : List (String × BillV2)) (b : BillV2)
    (h : pollV2 bills now = (bills', .delivered b)) :
    ∃ sel,
      (cleanupBillsV2 bills (now - ONE_HOUR_MS)).find?
        (fun kb => ! kb.2.printed) = some sel ∧
      b = { sel.2 with printed := true } ∧
      bills' = mapUpdate (cleanupBillsV2 bills (now - ONE_HOUR_MS)) sel.1
        (fun _ => { sel.2 with printed := true }) := by
  cases hsel : (cleanupBillsV2 bills (now - ONE_HOUR_MS)).find?
      (fun kb => ! kb.2.printed) with
  | none =>
    rw [pollV2_noContent_intro bills now hsel] at h
    injection h with h1 h2
    cases h2
  | some sel =>
    rw [pollV2_delivered_intro bills now sel hsel] at h
    injection h with h1 h2
    injection h2 with h3
    exact ⟨sel, rfl, h3.symm, h1.symm⟩

/- ===== Lemmas about the signature comparison models ===== -/

theorem scanEqAux_correct (as bs : List Char) : (scanEqAux as bs).1 = true ↔ as = bs := by
  induction as generalizing bs with
  | nil => cases bs <;> simp [scanEqAux]
  | cons a as ih =>
    cases bs with
    | nil => simp [scanEqAux]
    | cons b bs =>
      by_cases hab : a = b
      · subst hab
        simp [scanEqAux, ih]
      · simp [scanEqAux, hab]

theorem verifySignatureV1_correct (r e : String) :
    (verifySignatureV1 r e).1 = true ↔ r = e := by
  by_cases h : r.length = e.length
  · rw [verifySignatureV1, if_pos h, scanEqAux_correct]
    exact ⟨fun hd => String.ext_iff.mpr hd, fun he => String.ext_iff.mp he⟩
  · rw [verifySignatureV1, if_neg h]
    constructor
    · intro hf
      cases hf
    · intro he
      exact absurd (by rw [he]) h

theorem tseAux_cost (a : List Char) :
    ∀ b : List Char, a.length = b.length → (tseAux a b).2 = a.length := by
  induction a with
  | nil =>
    intro b h
    cases b with
    | nil => rfl
    | cons y ys => cases h
  | cons x xs ih =>
    intro b h
    cases b with
    | nil => cases h
    | cons y ys =>
      simp only [tseAux, List.length_cons]
      rw [ih ys (by simpa using h)]

/- ===== Concrete scenario constants ===== -/

/-- Captured payment used in concrete scenarios: payment pay_42 over 12000
minor currency units, carrying token number 42 in its notes. -/
def payment42 : PaymentEntity :=
  { id := "pay_42", order_id := "order_42", amount := 12000,
    method := some "upi", email := some "ann@example.com", contact := some "99",
    notes_token_number := some "42", notes_customer_name := some "Ann",
    notes_name := none, notes_customer := none }

/-- Empty initial server state. -/
def emptyState : ServerState := { pendingTokens := [], paidBills := [] }

/- ===== C1 ===== -/

/-- C1 (amended): for every webhook request with a signature header, each
variant rejects the request with no state change when the computed HMAC
hex digest of the exact raw body does not match the header; the comparison
verdict is exact equality; and the second variant's `timingSafeEqual`
comparison cost depends only on the input length (constant-time).  The
claim's constant-time assertion fails for the first variant, whose plain
string inequality short-circuits (see its counterexample theorem). -/
theorem c1_webhook_signature :
    (∀ (hmac : String → String → String) (secret r rawBody : String)
       (parse : String → Option WebhookPayload) (st : ServerState) (now : ℤ)
       (tS dS : String),
       (verifySignatureV1 r (hmac secret rawBody)).1 = false →
       webhookV1 hmac secret (some r) rawBody parse st now tS dS =
         (st, .invalidSignature)) ∧
    (∀ r e : String, (verifySignatureV1 r e).1 = true ↔ r = e) ∧
    (∀ a b : List Char, a.length = b.length →
       (timingSafeEqual a b).map Prod.snd = some a.length) ∧
    (∀ (hmac : String → String → String) (secret r rawBody : String)
       (parse : String → Option WebhookPayload) (bills : List (String × BillV2))
       (now : ℤ) (tS : String) (q : Bool × ℕ),
       timingSafeEqual r.data (hmac secret rawBody).data = some q → q.1 = false →
       webhookV2 hmac secret (some r) rawBody parse bills now tS =
         (bills, .invalidSignature)) := by
  refine ⟨?_, verifySignatureV1_correct, ?_, ?_⟩
  · intro hmac secret r rawBody parse st now tS dS h
    simp only [webhookV1]
    rw [if_pos h]
  · intro a b h
    rw [timingSafeEqual, if_pos h]
    simp [tseAux_cost a b h]
  · intro hmac secret r rawBody parse bills now tS q hq hq1
    simp only [webhookV2]
    simp [hq, hq1]

/-- C1 counterexample: with equal-length inputs, the first variant's
signature comparison performs a different number of character comparisons
depending on how many leading characters agree, so it is not
constant-time as the claim states. -/
theorem c1_counterexample :
    ("abcd" : String).length = ("xbcd" : String).length ∧
    (verifySignatureV1 "abcd" "abce").1 = (verifySignatureV1 "xbcd" "abce").1 ∧
    (verifySignatureV1 "abcd" "abce").2 = 4 ∧
    (verifySignatureV1 "xbcd" "abce").2 = 1 := by
  decide

/-- C1 witness: the amended theorem instantiated at concrete requests. -/
theorem c1_webhook_signature_witness :
    webhookV1 (fun _ _ => "sig") "secret" (some "bad") "body" (fun _ => none)
      emptyState 0 "t" "d" = (emptyState, .invalidSignature) ∧
    ((verifySignatureV1 "sig" "sig").1 = true ↔ ("sig" : String) = "sig") ∧
    (timingSafeEqual "abcd".data "efgh".data).map Prod.snd = some 4 ∧
    webhookV2 (fun _ _ => "sig1") "secret" (some "sig2") "body" (fun _ => none)
      [] 0 "t" = ([], .invalidSignature) :=
  ⟨c1_webhook_signature.1 (fun _ _ => "sig") "secret" "bad" "body" (fun _ => none)
      emptyState 0 "t" "d" (by decide),
   c1_webhook_signature.2.1 "sig" "sig",
   c1_webhook_signature.2.2.1 "abcd".data "efgh".data (by decide),
   c1_webhook_signature.2.2.2 (fun _ _ => "sig1") "secret" "sig2" "body"
      (fun _ => none) [] 0 "t" (false, 4) (by decide) (by decide)⟩

/- ===== C4 ===== -/

theorem ingestV1_duplicate (st : ServerState) (p : PaymentEntity) (now : ℤ)
    (tS dS : String) (h : mapHas st.paidBills p.id = true) :
    ingestV1 st p now tS dS = (st, .duplicate) := by
  simp only [ingestV1]
  rw [if_pos h]

theorem ingestV1_fresh (st : ServerState) (p : PaymentEntity) (now : ℤ)
    (tS dS : String) (hfresh : mapGet st.paidBills p.id = none) :
    ingestV1 st p now tS dS =
      ({ pendingTokens :=
          match mapGet st.pendingTokens (jsOrS p.notes_token_number "Unknown") with
          | none => st.pendingTokens
          | some _ =>
            mapUpdate st.pendingTokens (jsOrS p.notes_token_number "Unknown")
              (fun t => { t with status := "paid", paymentId := some p.id, paidAt := some now }),
         paidBills := mapSet st.paidBills p.id
          (mkBillV1 p (jsOrS p.notes_token_number "Unknown")
            (mapGet st.pendingTokens (jsOrS p.notes_token_number "Unknown")) now tS dS) },
       .stored) := by
  have hhas : mapHas st.paidBills p.id = false := by simp [mapHas, hfresh]
  simp only [ingestV1]
  rw [if_neg (by simp [hhas])]

theorem ingestV1_fresh_noToken (st : ServerState) (p : PaymentEntity) (now : ℤ)
    (tS dS : String) (hfresh : mapGet st.paidBills p.id = none)
    (htd : mapGet st.pendingTokens (jsOrS p.notes_token_number "Unknown") = none) :
    ingestV1 st p now tS dS =
      ({ pendingTokens := st.pendingTokens,
         paidBills := mapSet st.paidBills p.id (mkBillV1 p (jsOrS p.notes_token_number "Unknown") none now tS dS) },
       .stored) := by
  rw [ingestV1_fresh st p now tS dS hfresh, htd]

theorem ingestV1_fresh_token (st : ServerState) (p : PaymentEntity) (now : ℤ)
    (tS dS : String) (td : PendingToken) (hfresh : mapGet st.paidBills p.id = none)
    (htd : mapGet st.pendingTokens (jsOrS p.notes_token_number "Unknown") = some td) :
    ingestV1 st p now tS dS =
      ({ pendingTokens := mapUpdate st.pendingTokens (jsOrS p.notes_token_number "Unknown") (fun t => { t with status := "paid", paymentId := some p.id, paidAt := some now }),
         paidBills := mapSet st.paidBills p.id (mkBillV1 p (jsOrS p.notes_token_number "Unknown") (some td) now tS dS) },
       .stored) := by
  rw [ingestV1_fresh st p now tS dS hfresh, htd]

theorem deliverTimes_stable (p : PaymentEntity) (now : ℤ) (tS dS : String)
    (st : ServerState) (h : mapHas st.paidBills p.id = true) :
    ∀ n, deliverTimes p now tS dS n st = st := by
  intro n
  induction n with
  | zero => rfl
  | succ m ih =>
    have hst : webhookDeliver p now tS dS st = st := by
      simp [webhookDeliver, ingestV1_duplicate st p now tS dS h]
    simp only [deliverTimes, hst]
    exact ih

/-- C4 (confirmed): webhook ingestion is idempotent per payment id — after
any N of at least 1 identical deliveries of a valid capture event for a
fresh payment, the state equals the state after the first delivery, exactly
one Bill entry exists for that payment id, it has printAttempts 0, and
every delivery after the first acknowledges the duplicate without mutating
any store. -/
theorem c4_idempotent_ingestion (st0 : ServerState) (p : PaymentEntity) (now : ℤ)
    (tS dS : String) (n : ℕ) (hn : 1 ≤ n)
    (hfresh : mapGet st0.paidBills p.id = none) :
    deliverTimes p now tS dS n st0 = webhookDeliver p now tS dS st0 ∧
    countKey (webhookDeliver p now tS dS st0).paidBills p.id = 1 ∧
    (∃ bill, mapGet (webhookDeliver p now tS dS st0).paidBills p.id = some bill ∧
      bill.printAttempts = 0) ∧
    ingestV1 (webhookDeliver p now tS dS st0) p now tS dS =
      (webhookDeliver p now tS dS st0, .duplicate) := by
  have hstate : (webhookDeliver p now tS dS st0).paidBills =
      mapSet st0.paidBills p.id
        (mkBillV1 p (jsOrS p.notes_token_number "Unknown")
          (mapGet st0.pendingTokens (jsOrS p.notes_token_number "Unknown")) now tS dS) := by
    simp only [webhookDeliver, ingestV1_fresh st0 p now tS dS hfresh]
  have hget : mapGet (webhookDeliver p now tS dS st0).paidBills p.id =
      some (mkBillV1 p (jsOrS p.notes_token_number "Unknown")
        (mapGet st0.pendingTokens (jsOrS p.notes_token_number "Unknown")) now tS dS) := by
    rw [hstate]
    exact mapGet_mapSet_self _ _ _
  have hhas : mapHas (webhookDeliver p now tS dS st0).paidBills p.id = true := by
    simp [mapHas, hget]
  refine ⟨?_, ?_, ⟨_, hget, rfl⟩, ingestV1_duplicate _ p now tS dS hhas⟩
  · cases n with
    | zero => cases hn
    | succ m =>
      simp only [deliverTimes]
      exact deliverTimes_stable p now tS dS _ hhas m
  · rw [hstate, mapSet_of_fresh _ _ _ hfresh, countKey_append,
      countKey_eq_zero _ _ hfresh]
    simp [countKey]

/-- C4 witness: three identical deliveries of the pay_42 capture event
into the empty state leave exactly the single-delivery state with one Bill
for pay_42 at zero attempts. -/
theorem c4_idempotent_ingestion_witness :
    deliverTimes payment42 1000 "t" "d" 3 emptyState =
      webhookDeliver payment42 1000 "t" "d" emptyState ∧
    countKey (webhookDeliver payment42 1000 "t" "d" emptyState).paidBills "pay_42" = 1 ∧
    ingestV1 (webhookDeliver payment42 1000 "t" "d" emptyState) payment42 1000 "t" "d" =
      (webhookDeliver payment42 1000 "t" "d" emptyState, .duplicate) :=
  ⟨(c4_idempotent_ingestion emptyState payment42 1000 "t" "d" 3 (by decide) (by decide)).1,
   (c4_idempotent_ingestion emptyState payment42 1000 "t" "d" 3 (by decide) (by decide)).2.1,
   (c4_idempotent_ingestion emptyState payment42 1000 "t" "d" 3 (by decide) (by decide)).2.2.2⟩

/- ===== C3 ===== -/

theorem confirmPrint_found (st : ServerState) (pid : String) (now : ℤ) (bill : Bill)
    (hpid : pid ≠ "") (hb : mapGet st.paidBills pid = some bill) :
    confirmPrint st (some pid) now =
      ({ st with paidBills := mapUpdate st.paidBills pid (fun b => { b with printed := true, printConfirmedAt := some now }) },
       .ok (countUnprinted (mapUpdate st.paidBills pid (fun b => { b with printed := true, printConfirmedAt := some now })))) := by
  have hfalsy : ¬ ((some pid : Option String) = none ∨ (some pid : Option String) = some "") := by
    simp [hpid]
  simp only [confirmPrint]
  rw [if_neg hfalsy]
  simp only [Option.getD_some]
  rw [hb]

/-- C3 (amended): confirming an existing bill sets printed and stamps
printConfirmedAt with the confirmation time, changes no other bill and no
token, and reports the post-update unprinted count; a second confirmation
succeeds and is a no-op except that it restamps printConfirmedAt to the
second confirmation time (the state after two confirms equals the state
after a single confirm at the later time). -/
theorem c3_confirm_idempotence (st : ServerState) (pid : String) (now now₂ : ℤ)
    (bill : Bill) (hpid : pid ≠ "") (hb : mapGet st.paidBills pid = some bill) :
    (confirmPrint st (some pid) now).2 =
      .ok (countUnprinted (confirmPrint st (some pid) now).1.paidBills) ∧
    mapGet (confirmPrint st (some pid) now).1.paidBills pid =
      some { bill with printed := true, printConfirmedAt := some now } ∧
    (∀ k, k ≠ pid →
      mapGet (confirmPrint st (some pid) now).1.paidBills k = mapGet st.paidBills k) ∧
    (confirmPrint st (some pid) now).1.pendingTokens = st.pendingTokens ∧
    (confirmPrint (confirmPrint st (some pid) now).1 (some pid) now₂).1 =
      (confirmPrint st (some pid) now₂).1 := by
  have hred := confirmPrint_found st pid now bill hpid hb
  refine ⟨by rw [hred], ?_, ?_, by rw [hred], ?_⟩
  · rw [hred]
    simp [mapGet_mapUpdate, hb]
  · intro k hk
    rw [hred]
    simp only [mapGet_mapUpdate, if_neg hk]
  · have hb₂ : mapGet (confirmPrint st (some pid) now).1.paidBills pid =
        some { bill with printed := true, printConfirmedAt := some now } := by
      rw [hred]
      simp [mapGet_mapUpdate, hb]
    rw [confirmPrint_found _ pid now₂ _ hpid hb₂,
      confirmPrint_found st pid now₂ bill hpid hb, hred]
    simp only [mapUpdate_mapUpdate]

/-- C3 counterexample: re-confirming pay_1 at a later time changes
printConfirmedAt from the first confirmation time to the second, so the
second confirm is not a no-op on printConfirmedAt as the claim states. -/
theorem c3_counterexample :
    (mapGet (confirmPrint (ingestV1 emptyState payment42 500 "t" "d").1
        (some "pay_42") 1000).1.paidBills "pay_42").map Bill.printConfirmedAt =
      some (some 1000) ∧
    (mapGet (confirmPrint (confirmPrint (ingestV1 emptyState payment42 500 "t" "d").1
        (some "pay_42") 1000).1 (some "pay_42") 2000).1.paidBills "pay_42").map
      Bill.printConfirmedAt = some (some 2000) := by
  decide

/-- C3 witness: the amended theorem instantiated at the stored pay_42
bill. -/
theorem c3_confirm_idempotence_witness :
    (confirmPrint (confirmPrint (ingestV1 emptyState payment42 500 "t" "d").1
        (some "pay_42") 1000).1 (some "pay_42") 2000).1 =
      (confirmPrint (ingestV1 emptyState payment42 500 "t" "d").1
        (some "pay_42") 2000).1 :=
  (c3_confirm_idempotence (ingestV1 emptyState payment42 500 "t" "d").1
    "pay_42" 1000 2000 (mkBillV1 payment42 "42" none 500 "t" "d")
    (by decide) (by decide)).2.2.2.2

/- ===== C5 ===== -/

/-- C5 (confirmed): whenever the poll delivers a bill, that bill is an
unprinted survivor of the eviction pass whose timestamp is minimal among
all unprinted survivors, every survivor inserted before it is strictly
newer (so ties are broken by insertion order), and the delivered record is
the selected bill with only the attempt counter bumped; when no unprinted
bill survives, the poll returns the explicit no-content signal, a distinct
non-error outcome. -/
theorem c5_oldest_first_selection (st : ServerState) (now : ℤ) :
    (∀ st' b, pollV1 st now = (st', .delivered b) →
      ∃ sel pre suf,
        ((cleanupBills st.paidBills (now - TWO_HOURS_MS)).filter
          (fun kb => ! kb.2.printed)) = pre ++ sel :: suf ∧
        b = bumpBill sel.2 now ∧
        sel.2.printed = false ∧
        (∀ x ∈ pre, sel.2.timestamp < x.2.timestamp) ∧
        (∀ x ∈ suf, sel.2.timestamp ≤ x.2.timestamp)) ∧
    (((cleanupBills st.paidBills (now - TWO_HOURS_MS)).filter
        (fun kb => ! kb.2.printed)) = [] →
      pollV1 st now =
        ({ st with paidBills := cleanupBills st.paidBills (now - TWO_HOURS_MS) },
         .noContent)) := by
  constructor
  · intro st' b h
    obtain ⟨sel, hsel, hb, hst⟩ := pollV1_delivered_elim st now st' b h
    obtain ⟨pre, suf, hsplit, hpre, hsuf⟩ := firstMinBill_decomp _ sel hsel
    have hmem := firstMinBill_mem _ sel hsel
    have hup : sel.2.printed = false := by
      have := (List.mem_filter.mp hmem).2
      simpa using this
    exact ⟨sel, pre, suf, hsplit, hb, hup, hpre, hsuf⟩
  · exact pollV1_noContent_intro st now

/-- Unprinted bill created at time 500 in concrete poll scenarios. -/
def billA : Bill :=
  { orderId := "oA", paymentId := "pay_A", tokenNumber := "1", amount := 10,
    items := [], method := "M", customerName := "a", customerEmail := "",
    customerPhone := "", time := "t", date := "d", timestamp := 500,
    printed := false, printAttempts := 0, lastPrintAttempt := none,
    printConfirmedAt := none }

/-- Older unprinted bill (timestamp 300) inserted after billA. -/
def billB : Bill :=
  { billA with orderId := "oB", paymentId := "pay_B", timestamp := 300 }

/-- Store holding billA then billB, in that insertion order. -/
def twoBillState : ServerState :=
  { pendingTokens := [], paidBills := [("pay_A", billA), ("pay_B", billB)] }

/-- C5 witness: polling the two-bill store delivers the older bill billB
with its attempt counter bumped. -/
theorem c5_oldest_first_selection_witness :
    ∃ sel pre suf,
      ((cleanupBills twoBillState.paidBills (1000 - TWO_HOURS_MS)).filter
        (fun kb => ! kb.2.printed)) = pre ++ sel :: suf ∧
      bumpBill billB 1000 = bumpBill sel.2 1000 ∧
      sel.2.printed = false ∧
      (∀ x ∈ pre, sel.2.timestamp < x.2.timestamp) ∧
      (∀ x ∈ suf, sel.2.timestamp ≤ x.2.timestamp) :=
  (c5_oldest_first_selection twoBillState 1000).1
    { twoBillState with paidBills := mapUpdate twoBillState.paidBills "pay_B" (fun _ => bumpBill billB 1000) }
    (bumpBill billB 1000) (by decide)

/- ===== C7 ===== -/

theorem evictable_eq_false_iff (b : Bill) (cutoff : ℤ) :
    evictable b cutoff = false ↔ ¬(b.timestamp ≠ 0 ∧ b.timestamp < cutoff) := by
  simp only [evictable]
  simp

theorem evictableV2_eq_false_iff (b : BillV2) (cutoff : ℤ) :
    evictableV2 b cutoff = false ↔ ¬(b.timestamp ≠ 0 ∧ b.timestamp < cutoff) := by
  simp only [evictableV2]
  simp

theorem pollV1_absent (st : ServerState) (now : ℤ) (k : String)
    (h : mapGet (cleanupBills st.paidBills (now - TWO_HOURS_MS)) k = none) :
    mapGet (pollV1 st now).1.paidBills k = none := by
  cases hsel : firstMinBill ((cleanupBills st.paidBills (now - TWO_HOURS_MS)).filter
      (fun kb => ! kb.2.printed)) with
  | none =>
    rw [pollV1_noContent_intro st now ((firstMinBill_eq_none_iff _).mp hsel)]
    exact h
  | some sel =>
    rw [pollV1_delivered_intro st now sel hsel]
    simp [mapGet_mapUpdate, h]

theorem pollV2_absent (bills : List (String × BillV2)) (now : ℤ) (k : String)
    (h : mapGet (cleanupBillsV2 bills (now - ONE_HOUR_MS)) k = none) :
    mapGet (pollV2 bills now).1 k = none := by
  cases hsel : (cleanupBillsV2 bills (now - ONE_HOUR_MS)).find?
      (fun kb => ! kb.2.printed) with
  | none =>
    rw [pollV2_noContent_intro bills now hsel]
    exact h
  | some sel =>
    rw [pollV2_delivered_intro bills now sel hsel]
    simp [mapGet_mapUpdate, h]

/-- C7 (amended): the lazy eviction pass inside each poll removes exactly
the bills whose nonzero timestamp is older than the retention window
(2 hours in the first variant, 1 hour in the second), regardless of the
printed flag; hence a bill with nonzero timestamp T stored under a unique
key is gone from the store after any poll at a time strictly later than T
plus the window, and is never the delivered bill of such a poll; and the
poll-time pass is the only eviction trigger — ingestion, confirmation,
token registration (both variants), token listing and order creation
preserve every stored bill.  A zero stored timestamp is skipped by the JS
truthiness guard, which is the one exception to the claim (see the
counterexample). -/
theorem c7_lazy_eviction :
    (∀ (bills : List (String × Bill)) (cutoff : ℤ) (kb : String × Bill),
       kb ∈ cleanupBills bills cutoff ↔
         kb ∈ bills ∧ ¬(kb.2.timestamp ≠ 0 ∧ kb.2.timestamp < cutoff)) ∧
    (∀ (st : ServerState) (now : ℤ) (k : String) (b : Bill),
       (st.paidBills.map Prod.fst).Nodup →
       mapGet st.paidBills k = some b →
       b.timestamp ≠ 0 → b.timestamp + TWO_HOURS_MS < now →
       mapGet (pollV1 st now).1.paidBills k = none) ∧
    (∀ (st : ServerState) (now : ℤ) (st' : ServerState) (b : Bill),
       pollV1 st now = (st', .delivered b) →
       ¬(b.timestamp ≠ 0 ∧ b.timestamp < now - TWO_HOURS_MS)) ∧
    (∀ (bills : List (String × BillV2)) (now : ℤ) (k : String) (b : BillV2),
       (bills.map Prod.fst).Nodup →
       mapGet bills k = some b →
       b.timestamp ≠ 0 → b.timestamp + ONE_HOUR_MS < now →
       mapGet (pollV2 bills now).1 k = none) ∧
    (∀ (bills bills' : List (String × BillV2)) (now : ℤ) (b : BillV2),
       pollV2 bills now = (bills', .delivered b) →
       ¬(b.timestamp ≠ 0 ∧ b.timestamp < now - ONE_HOUR_MS)) ∧
    (∀ (st : ServerState) (p : PaymentEntity) (now : ℤ) (tS dS : String)
       (k : String) (v : Bill),
       mapGet st.paidBills k = some v →
       mapGet (ingestV1 st p now tS dS).1.paidBills k = some v) ∧
    (∀ (st : ServerState) (pid : Option String) (now : ℤ) (k : String),
       (mapGet (confirmPrint st pid now).1.paidBills k).isSome =
         (mapGet st.paidBills k).isSome) ∧
    (∀ (st : ServerState) (tn : String) (amount : ℚ)
       (items : Option (List String)) (now : ℤ),
       (createTokenV1 st tn amount items now).1.paidBills = st.paidBills ∧
       (createTokenV3 st tn amount items now).1.paidBills = st.paidBills) ∧
    (∀ (st : ServerState) (now : ℤ),
       (listPendingTokens st now).1.paidBills = st.paidBills) ∧
    (∀ (st : ServerState) (tn : String), (createOrderV1 st tn).1 = st) := by
  refine ⟨?_, ?_, ?_, ?_, ?_, ?_, ?_, ?_, fun st now => rfl, ?_⟩
  · intro bills cutoff kb
    rw [cleanupBills_mem, evictable_eq_false_iff]
  · intro st now k b hnodup hb hT ht
    apply pollV1_absent
    unfold cleanupBills
    rw [mapGet_filter_of_nodup _ _ _ hnodup, hb]
    have hev : evictable b (now - TWO_HOURS_MS) = true := by
      simp only [evictable, Bool.and_eq_true, bne_iff_ne, ne_eq, decide_eq_true_eq]
      exact ⟨hT, by omega⟩
    simp [hev]
  · intro st now st' b h
    obtain ⟨sel, hsel, hb, hst⟩ := pollV1_delivered_elim st now st' b h
    have hmem := firstMinBill_mem _ sel hsel
    have hcl : sel ∈ cleanupBills st.paidBills (now - TWO_HOURS_MS) :=
      (List.mem_filter.mp hmem).1
    have hev : evictable sel.2 (now - TWO_HOURS_MS) = false :=
      ((cleanupBills_mem _ _ _).mp hcl).2
    subst hb
    exact (evictable_eq_false_iff _ _).mp hev
  · intro bills now k b hnodup hb hT ht
    apply pollV2_absent
    unfold cleanupBillsV2
    rw [mapGet_filter_of_nodup _ _ _ hnodup, hb]
    have hev : evictableV2 b (now - ONE_HOUR_MS) = true := by
      simp only [evictableV2, Bool.and_eq_true, bne_iff_ne, ne_eq, decide_eq_true_eq]
      exact ⟨hT, by omega⟩
    simp [hev]
  · intro bills bills' now b h
    obtain ⟨sel, hsel, hb, hst⟩ := pollV2_delivered_elim bills now bills' b h
    have hmem := List.mem_of_find?_eq_some hsel
    have hev : evictableV2 sel.2 (now - ONE_HOUR_MS) = false :=
      ((cleanupBillsV2_mem _ _ _).mp hmem).2
    subst hb
    exact (evictableV2_eq_false_iff _ _).mp hev
  · intro st p now tS dS k v hv
    by_cases hhas : mapHas st.paidBills p.id = true
    · rw [ingestV1_duplicate st p now tS dS hhas]
      exact hv
    · have hfresh : mapGet st.paidBills p.id = none := by
        cases hmg : mapGet st.paidBills p.id with
        | none => rfl
        | some v => exact absurd (by simp [mapHas, hmg]) hhas
      rw [ingestV1_fresh st p now tS dS hfresh]
      have hk : k ≠ p.id := by
        intro hkk
        rw [hkk, hfresh] at hv
        cases hv
      simpa [mapGet_mapSet_ne _ _ _ _ hk] using hv
  · intro st pid now k
    by_cases hfalsy : pid = none ∨ pid = some ""
    · simp [confirmPrint, hfalsy]
    · simp only [confirmPrint, if_neg hfalsy]
      cases hg : mapGet st.paidBills (pid.getD "") with
      | none => rfl
      | some bill =>
        by_cases hk : k = pid.getD ""
        · subst hk
          simp [mapGet_mapUpdate, hg]
        · simp [mapGet_mapUpdate, hk]
  · intro st tn amount items now
    constructor
    · by_cases h : tn = "" ∨ amount = 0 <;> simp [createTokenV1, h]
    · by_cases h : tn = "" ∨ amount = 0
      · simp [createTokenV3, h]
      · by_cases h₂ : amount ≤ 0 ∨ amount > 1000000 <;> simp [createTokenV3, h, h₂]
  · intro st tn
    cases hg : mapGet st.pendingTokens tn with
    | none => simp [createOrderV1, hg]
    | some token =>
      by_cases hs : token.status ≠ "pending" <;> simp [createOrderV1, hg, hs]

/-- Bill stored with timestamp 0, which the truthiness guard never
evicts. -/
def zeroTsBill : Bill :=
  { billA with paymentId := "pay_0", timestamp := 0 }

/-- Store holding only the zero-timestamp bill. -/
def zeroTsState : ServerState :=
  { pendingTokens := [], paidBills := [("pay_0", zeroTsBill)] }

/-- C7 counterexample: a bill created at time 0 is far older than the
2-hour window at poll time 10^13, yet the poll still delivers it and it
remains in the store, contradicting the claim that every bill older than
the window is deleted. -/
theorem c7_counterexample :
    (pollV1 zeroTsState 10000000000000).2 =
      .delivered (bumpBill zeroTsBill 10000000000000) ∧
    mapGet (pollV1 zeroTsState 10000000000000).1.paidBills "pay_0" =
      some (bumpBill zeroTsBill 10000000000000) := by
  decide

/-- C7 witness: polling the two-bill store just past the window evicts
both bills, and ingestion of a fresh payment preserves a stored bill. -/
theorem c7_lazy_eviction_witness :
    mapGet (pollV1 twoBillState 7200501).1.paidBills "pay_A" = none ∧
    mapGet (ingestV1 twoBillState payment42 600 "t" "d").1.paidBills "pay_A" =
      some billA :=
  ⟨c7_lazy_eviction.2.1 twoBillState 7200501 "pay_A" billA (by decide) (by decide)
      (by decide) (by decide),
   c7_lazy_eviction.2.2.2.2.2.1 twoBillState payment42 600 "t" "d" "pay_A" billA
      (by decide)⟩

/- ===== C2 ===== -/

theorem mapUpdate_map_fst {α : Type} (m : List (String × α)) (key : String) (f : α → α) :
    (mapUpdate m key f).map Prod.fst = m.map Prod.fst := by
  induction m with
  | nil => rfl
  | cons kv rest ih =>
    obtain ⟨k₁, w⟩ := kv
    by_cases h : k₁ = key <;> simp [mapUpdate, h, ih]

theorem mem_value_eq_of_nodup {α : Type} (m : List (String × α))
    (hnodup : (m.map Prod.fst).Nodup) (k : String) (v w : α)
    (hv : (k, v) ∈ m) (hw : (k, w) ∈ m) : v = w := by
  have h1 := mapGet_of_mem_of_nodup m k v hv hnodup
  have h2 := mapGet_of_mem_of_nodup m k w hw hnodup
  rw [h1] at h2
  injection h2

theorem evictable_congr_ts (b b' : Bill) (cutoff : ℤ)
    (h : b.timestamp = b'.timestamp) : evictable b cutoff = evictable b' cutoff := by
  simp [evictable, h]

/-- C2 (amended): for the printAttempts-based poll variant, a delivered
bill is unprinted, equals the stored bill with only printAttempts bumped
and lastPrintAttempt stamped, the store keeps it unprinted under its key,
every other bill is untouched (no eviction being due), the token store is
untouched, and a second poll with no intervening confirmation delivers the
same bill again with printAttempts incremented once more (so 2 when it
started at 0).  The claim fails for the second (simple) variant, which
marks the bill printed on delivery (see the counterexample). -/
theorem c2_poll_frame (st : ServerState) (now now' : ℤ) (st' : ServerState) (b : Bill)
    (hkeys : ∀ kb ∈ st.paidBills, kb.1 = kb.2.paymentId)
    (hnodup : (st.paidBills.map Prod.fst).Nodup)
    (hclean : ∀ kb ∈ st.paidBills, evictable kb.2 (now - TWO_HOURS_MS) = false)
    (hclean' : ∀ kb ∈ st.paidBills, evictable kb.2 (now' - TWO_HOURS_MS) = false)
    (h : pollV1 st now = (st', .delivered b)) :
    b.printed = false ∧
    (∃ stored, mapGet st.paidBills b.paymentId = some stored ∧
      b = { stored with printAttempts := stored.printAttempts + 1, lastPrintAttempt := some now }) ∧
    mapGet st'.paidBills b.paymentId = some b ∧
    (∀ k, k ≠ b.paymentId → mapGet st'.paidBills k = mapGet st.paidBills k) ∧
    st'.pendingTokens = st.pendingTokens ∧
    (pollV1 st' now').2 = .delivered (bumpBill b now') ∧
    (bumpBill b now').paymentId = b.paymentId ∧
    (bumpBill b now').printAttempts = b.printAttempts + 1 ∧
    (bumpBill b now').printed = b.printed := by
  have hcl : cleanupBills st.paidBills (now - TWO_HOURS_MS) = st.paidBills :=
    cleanupBills_eq_self _ _ hclean
  obtain ⟨sel, hsel, hb, hst⟩ := pollV1_delivered_elim st now st' b h
  rw [hcl] at hsel hst
  have hmem_f := firstMinBill_mem _ sel hsel
  have hmem : sel ∈ st.paidBills := (List.mem_filter.mp hmem_f).1
  have hunp : sel.2.printed = false := by
    have := (List.mem_filter.mp hmem_f).2
    simpa using this
  have hkey : sel.1 = sel.2.paymentId := hkeys sel hmem
  have hbp : b.paymentId = sel.1 := by rw [hb, hkey]; rfl
  have hmemkv : (sel.1, sel.2) ∈ st.paidBills := hmem
  have hget : mapGet st.paidBills sel.1 = some sel.2 :=
    mapGet_of_mem_of_nodup _ _ _ hmemkv hnodup
  have hts : b.timestamp = sel.2.timestamp := by rw [hb]; rfl
  have hpr : b.printed = sel.2.printed := by rw [hb]; rfl
  refine ⟨by rw [hpr, hunp], ⟨sel.2, by rw [hbp, hget], hb⟩, ?_, ?_, by rw [hst], ?_, rfl, rfl, rfl⟩
  · rw [hst, hbp]
    simp [mapGet_mapUpdate, hget, hb]
  · intro k hk
    rw [hst]
    have hk' : ¬ k = sel.1 := by rw [← hbp]; exact hk
    simp only [mapGet_mapUpdate, if_neg hk']
  · -- the second poll selects the same entry again
    have hmap : st'.paidBills =
        st.paidBills.map (fun kv => if kv.1 = sel.1 then (kv.1, b) else kv) := by
      rw [hst, ← hb, mapUpdate_eq_map]
    have hshape : List.Forall₂ BillShape st.paidBills st'.paidBills := by
      rw [hmap]
      apply forall₂_of_map
      intro kv hkv
      by_cases hkk : kv.1 = sel.1
      · have hveq : kv.2 = sel.2 := by
          apply mem_value_eq_of_nodup st.paidBills hnodup sel.1 kv.2 sel.2
          · rw [← hkk]; exact hkv
          · exact hmemkv
        refine ⟨by simp [hkk], ?_, ?_⟩
        · simp only [if_pos hkk]
          rw [hveq, ← hts]
        · simp only [if_pos hkk]
          rw [hveq, ← hpr]
      · exact ⟨by simp [hkk], by simp [hkk], by simp [hkk]⟩
    have hnodup' : (st'.paidBills.map Prod.fst).Nodup := by
      rw [hst, ← hb]
      rw [show ({ st with paidBills := mapUpdate st.paidBills sel.1 (fun _ => b) } : ServerState).paidBills = mapUpdate st.paidBills sel.1 (fun _ => b) from rfl]
      rw [mapUpdate_map_fst]
      exact hnodup
    have hclean₂ : ∀ kb ∈ st'.paidBills, evictable kb.2 (now' - TWO_HOURS_MS) = false := by
      intro kb hkb
      rw [hmap] at hkb
      obtain ⟨kv, hkv, hkveq⟩ := List.mem_map.mp hkb
      by_cases hkk : kv.1 = sel.1
      · rw [← hkveq]
        simp only [if_pos hkk]
        rw [evictable_congr_ts b sel.2 _ hts]
        exact hclean' _ hmemkv
      · rw [← hkveq]
        simp only [if_neg hkk]
        exact hclean' kv hkv
    have hcl₂ : cleanupBills st'.paidBills (now' - TWO_HOURS_MS) = st'.paidBills :=
      cleanupBills_eq_self _ _ hclean₂
    obtain ⟨sel', hsel', hshape'⟩ :=
      forall₂_firstMin (forall₂_filter_unprinted hshape) sel hsel
    have hmem'_f := firstMinBill_mem _ sel' hsel'
    have hmem' : sel' ∈ st'.paidBills := (List.mem_filter.mp hmem'_f).1
    have hk' : sel'.1 = sel.1 := hshape'.1.symm
    have hget' : mapGet st'.paidBills sel'.1 = some sel'.2 :=
      mapGet_of_mem_of_nodup _ _ _ hmem' hnodup'
    have hgetb : mapGet st'.paidBills sel.1 = some b := by
      rw [hst]
      simp [mapGet_mapUpdate, hget, hb]
    have hval : sel'.2 = b := by
      rw [hk', hgetb] at hget'
      injection hget' with hvv
      exact hvv.symm
    have hintro := pollV1_delivered_intro st' now' sel' (by rw [hcl₂]; exact hsel')
    rw [hintro]
    rw [hval]

/-- Simple-variant bill used in the C2 counterexample. -/
def simpleBill : BillV2 :=
  { orderId := "o", paymentId := "pay_1", amount := 100, method := "M",
    customerName := "c", time := "t", timestamp := 500, printed := false }

/-- C2 counterexample: the second poll variant marks the bill printed on
delivery (both in the response object and in the store), and a second poll
returns no content instead of the same bill with two attempts —
contradicting the claim for that cited handler. -/
theorem c2_counterexample :
    (pollV2 [("pay_1", simpleBill)] 1000).2 =
      .delivered { simpleBill with printed := true } ∧
    (mapGet (pollV2 [("pay_1", simpleBill)] 1000).1 "pay_1").map BillV2.printed =
      some true ∧
    (pollV2 (pollV2 [("pay_1", simpleBill)] 1000).1 1000).2 = .noContent := by
  decide

/-- C2 witness: the amended theorem instantiated on the two-bill store;
the delivered bill is unprinted and the second poll delivers it again with
another attempt bump. -/
theorem c2_poll_frame_witness :
    (bumpBill billB 1000).printed = false ∧
    (pollV1 { twoBillState with paidBills := mapUpdate twoBillState.paidBills "pay_B" (fun _ => bumpBill billB 1000) } 2000).2 =
      .delivered (bumpBill (bumpBill billB 1000) 2000) :=
  ⟨(c2_poll_frame twoBillState 1000 2000
      { twoBillState with paidBills := mapUpdate twoBillState.paidBills "pay_B" (fun _ => bumpBill billB 1000) }
      (bumpBill billB 1000) (by decide) (by decide) (by decide) (by decide) (by decide)).1,
   (c2_poll_frame twoBillState 1000 2000
      { twoBillState with paidBills := mapUpdate twoBillState.paidBills "pay_B" (fun _ => bumpBill billB 1000) }
      (bumpBill billB 1000) (by decide) (by decide) (by decide) (by decide) (by decide)).2.2.2.2.2.1⟩

/- ===== C6 ===== -/

/-- C6 (amended): the poll response body is the responseData projection of
the delivered bill — it contains the bill's paymentId, its amount
(converted from minor units on ingestion), its printed flag and the other
bill and server-time fields, but it omits the attempt counter; in the
concrete pay_42 scenario (12000 minor units) the first poll delivers the
bill with amount 120 and stored printAttempts 1, while the response body
carries no printAttempts key. -/
theorem c6_poll_response (bill : Bill) (sT : String) (sTs : ℤ) :
    ("paymentId", JVal.str bill.paymentId) ∈ buildResponseV1 bill sT sTs ∧
    ("amount", JVal.num bill.amount) ∈ buildResponseV1 bill sT sTs ∧
    ("printed", JVal.bool bill.printed) ∈ buildResponseV1 bill sT sTs ∧
    ((buildResponseV1 bill sT sTs).map Prod.fst).contains "printAttempts" = false ∧
    (pollV1 (ingestV1 emptyState payment42 1000 "t" "d").1 2000).2 =
      .delivered (bumpBill (mkBillV1 payment42 "42" none 1000 "t" "d") 2000) ∧
    (bumpBill (mkBillV1 payment42 "42" none 1000 "t" "d") 2000).paymentId = "pay_42" ∧
    (bumpBill (mkBillV1 payment42 "42" none 1000 "t" "d") 2000).amount = 120 ∧
    (bumpBill (mkBillV1 payment42 "42" none 1000 "t" "d") 2000).printAttempts = 1 := by
  refine ⟨?_, ?_, ?_, rfl, by decide, by decide, by decide, rfl⟩
  · simp [buildResponseV1]
  · simp [buildResponseV1]
  · simp [buildResponseV1]

/-- C6 counterexample: the first poll of the pay_42 scenario delivers the
bill whose stored printAttempts is 1, but the response object built from
it contains no printAttempts key — refuting the claim that the returned
projection contains printAttempts 1. -/
theorem c6_counterexample :
    (pollV1 (ingestV1 emptyState payment42 1000 "t" "d").1 2000).2 =
      .delivered (bumpBill (mkBillV1 payment42 "42" none 1000 "t" "d") 2000) ∧
    (bumpBill (mkBillV1 payment42 "42" none 1000 "t" "d") 2000).printAttempts = 1 ∧
    ((buildResponseV1 (bumpBill (mkBillV1 payment42 "42" none 1000 "t" "d") 2000)
      "iso" 2000).map Prod.fst).contains "printAttempts" = false := by
  decide

/- ===== C8 ===== -/

theorem confirmPrint_pendingTokens (st : ServerState) (pid : Option String) (now : ℤ) :
    (confirmPrint st pid now).1.pendingTokens = st.pendingTokens := by
  by_cases hfalsy : pid = none ∨ pid = some ""
  · simp [confirmPrint, hfalsy]
  · simp only [confirmPrint, if_neg hfalsy]
    cases mapGet st.paidBills (pid.getD "") <;> rfl

theorem createOrderV1_state (st : ServerState) (tn : String) :
    (createOrderV1 st tn).1 = st := by
  cases hg : mapGet st.pendingTokens tn with
  | none => simp [createOrderV1, hg]
  | some token =>
    by_cases hs : token.status ≠ "pending" <;> simp [createOrderV1, hg, hs]

/-- C8 (amended): the webhook is the only operation that marks a token
paid — ingestion either leaves a token entry unchanged or rewrites it to
status paid; poll and confirm never touch the token store; the listing
only evicts entries (the kept ones are a sublist, hence unchanged); order
creation never mutates state.  However, registration unconditionally
overwrites the entry under the (re-used) token number with a fresh
pending record, so a paid token CAN go back to pending through
re-registration — the claim that no operation sequence reverses paid to
pending fails (see the counterexample). -/
theorem c8_token_status_machine :
    (∀ (st : ServerState) (p : PaymentEntity) (now : ℤ) (tS dS : String)
       (k : String) (t' : PendingToken),
       mapGet (ingestV1 st p now tS dS).1.pendingTokens k = some t' →
       mapGet st.pendingTokens k = some t' ∨
       ∃ t, mapGet st.pendingTokens k = some t ∧
         t' = { t with status := "paid", paymentId := some p.id, paidAt := some now }) ∧
    (∀ (st : ServerState) (now : ℤ),
       (pollV1 st now).1.pendingTokens = st.pendingTokens) ∧
    (∀ (st : ServerState) (pid : Option String) (now : ℤ),
       (confirmPrint st pid now).1.pendingTokens = st.pendingTokens) ∧
    (∀ (st : ServerState) (now : ℤ),
       (listPendingTokens st now).1.pendingTokens.Sublist st.pendingTokens) ∧
    (∀ (st : ServerState) (tn : String), (createOrderV1 st tn).1 = st) ∧
    (∀ (st : ServerState) (tn : String) (amount : ℚ)
       (items : Option (List String)) (now : ℤ),
       tn ≠ "" → amount ≠ 0 →
       mapGet (createTokenV1 st tn amount items now).1.pendingTokens tn =
         some { tokenNumber := tn, amount := amount, items := items.getD [], createdAt := now, status := "pending", paymentId := none, paidAt := none }) := by
  refine ⟨?_, pollV1_pendingTokens, confirmPrint_pendingTokens,
    fun st now => List.filter_sublist _, createOrderV1_state, ?_⟩
  · intro st p now tS dS k t' ht'
    by_cases hhas : mapHas st.paidBills p.id = true
    · rw [ingestV1_duplicate st p now tS dS hhas] at ht'
      exact Or.inl ht'
    · have hfresh : mapGet st.paidBills p.id = none := by
        cases hmg : mapGet st.paidBills p.id with
        | none => rfl
        | some v => exact absurd (by simp [mapHas, hmg]) hhas
      cases htd : mapGet st.pendingTokens (jsOrS p.notes_token_number "Unknown") with
      | none =>
        rw [ingestV1_fresh_noToken st p now tS dS hfresh htd] at ht'
        exact Or.inl ht'
      | some td =>
        rw [ingestV1_fresh_token st p now tS dS td hfresh htd] at ht'
        rw [show ({ pendingTokens := mapUpdate st.pendingTokens (jsOrS p.notes_token_number "Unknown") (fun t => { t with status := "paid", paymentId := some p.id, paidAt := some now }), paidBills := mapSet st.paidBills p.id (mkBillV1 p (jsOrS p.notes_token_number "Unknown") (some td) now tS dS) : ServerState }, WebhookResp.stored).1.pendingTokens = mapUpdate st.pendingTokens (jsOrS p.notes_token_number "Unknown") (fun t => { t with status := "paid", paymentId := some p.id, paidAt := some now }) from rfl] at ht'
        rw [mapGet_mapUpdate] at ht'
        by_cases hk : k = jsOrS p.notes_token_number "Unknown"
        · rw [if_pos hk] at ht'
          cases hmg : mapGet st.pendingTokens k with
          | none =>
            rw [hmg] at ht'
            cases ht'
          | some t =>
            rw [hmg] at ht'
            refine Or.inr ⟨t, rfl, ?_⟩
            injection ht' with hv
            exact hv.symm
        · rw [if_neg hk] at ht'
          exact Or.inl ht'
  · intro st tn amount items now htn hamt
    simp only [createTokenV1, if_neg (not_or.mpr ⟨htn, hamt⟩)]
    exact mapGet_mapSet_self _ _ _

/-- C8 counterexample: register token 42, pay it (status becomes paid),
then register token 42 again — the entry's status is back to pending,
refuting the claim that no operation sequence reverses paid to pending. -/
theorem c8_counterexample :
    (mapGet (ingestV1 (createTokenV1 emptyState "42" 10 none 0).1 payment42
      1000 "t" "d").1.pendingTokens "42").map PendingToken.status = some "paid" ∧
    (mapGet (createTokenV1 (ingestV1 (createTokenV1 emptyState "42" 10 none 0).1
      payment42 1000 "t" "d").1 "42" 10 none 2000).1.pendingTokens "42").map
      PendingToken.status = some "pending" := by
  decide

/-- C8 witness: the registration conjunct of the amended theorem at a
concrete token. -/
theorem c8_token_status_machine_witness :
    mapGet (createTokenV1 emptyState "42" 10 none 0).1.pendingTokens "42" =
      some { tokenNumber := "42", amount := 10, items := [], createdAt := 0, status := "pending", paymentId := none, paidAt := none } :=
  c8_token_status_machine.2.2.2.2.2 emptyState "42" 10 none 0 (by decide) (by decide)

/- ===== C9 ===== -/

/-- C9 (amended): the hardened registration variant stores the token under
the sanitized key — alphanumeric and at most 20 characters — validates the
amount to lie in (0, 1000000], rejecting out-of-range amounts (and missing
fields) with no mutation, and bounds the stored item list to at most 100
items of at most 50 characters each.  The first (Server.js) registration
variant performs none of this beyond truthiness checks, so the claim as
stated over both cited handlers fails (see the counterexample). -/
theorem c9_create_token_validation :
    (∀ tn : String, (∀ c ∈ (sanitizeTokenNumber tn).data, c.isAlphanum = true) ∧
       (sanitizeTokenNumber tn).length ≤ 20) ∧
    (∀ (st : ServerState) (tn : String) (amount : ℚ)
       (items : Option (List String)) (now : ℤ),
       tn = "" ∨ amount = 0 →
       createTokenV3 st tn amount items now = (st, .missingFields)) ∧
    (∀ (st : ServerState) (tn : String) (amount : ℚ)
       (items : Option (List String)) (now : ℤ),
       tn ≠ "" → amount ≠ 0 → (amount ≤ 0 ∨ amount > 1000000) →
       createTokenV3 st tn amount items now = (st, .serverError)) ∧
    (∀ (st : ServerState) (tn : String) (amount : ℚ)
       (items : Option (List String)) (now : ℤ),
       tn ≠ "" → 0 < amount → amount ≤ 1000000 →
       createTokenV3 st tn amount items now =
         ({ st with pendingTokens := mapSet st.pendingTokens (sanitizeTokenNumber tn) { tokenNumber := sanitizeTokenNumber tn, amount := amount, items := validateItems items, createdAt := now, status := "pending", paymentId := none, paidAt := none } },
          .success (sanitizeTokenNumber tn) amount)) ∧
    (∀ items : Option (List String), (validateItems items).length ≤ 100 ∧
       ∀ it ∈ validateItems items, it.length ≤ 50) := by
  refine ⟨?_, ?_, ?_, ?_, ?_⟩
  · intro tn
    constructor
    · intro c hc
      have hmem : c ∈ tn.data.filter Char.isAlphanum :=
        (List.take_sublist _ _).subset hc
      exact (List.mem_filter.mp hmem).2
    · show (List.take 20 (tn.data.filter Char.isAlphanum)).length ≤ 20
      rw [List.length_take]
      exact inf_le_left
  · intro st tn amount items now h
    simp only [createTokenV3, if_pos h]
  · intro st tn amount items now htn hamt hbad
    simp only [createTokenV3, if_neg (not_or.mpr ⟨htn, hamt⟩), if_pos hbad]
  · intro st tn amount items now htn h0 hle
    have hamt : amount ≠ 0 := ne_of_gt h0
    simp only [createTokenV3, if_neg (not_or.mpr ⟨htn, hamt⟩),
      if_neg (not_or.mpr ⟨not_le.mpr h0, not_lt.mpr hle⟩)]
  · intro items
    cases items with
    | none => exact ⟨by simp [validateItems], by simp [validateItems]⟩
    | some l =>
      constructor
      · show ((l.take 100).map _).length ≤ 100
        rw [List.length_map, List.length_take]
        exact inf_le_left
      · intro it hit
        obtain ⟨item, hitem, rfl⟩ := List.mem_map.mp hit
        show (List.take 50 item.data).length ≤ 50
        rw [List.length_take]
        exact inf_le_left

/-- C9 counterexample: the first registration variant accepts token number
a!b with the negative amount -5 and stores the raw, unsanitized key with
the invalid amount — refuting sanitization and positive-amount validation
for that cited handler. -/
theorem c9_counterexample :
    (createTokenV1 emptyState "a!b" (-5) none 0).2 = .success "a!b" (-5) ∧
    (mapGet (createTokenV1 emptyState "a!b" (-5) none 0).1.pendingTokens "a!b").map
      PendingToken.amount = some (-5) ∧
    Char.isAlphanum '!' = false ∧ '!' ∈ ("a!b" : String).data ∧ ((-5 : ℚ) < 0) := by
  decide

/-- C9 witness: the hardened variant at a concrete registration. -/
theorem c9_create_token_validation_witness :
    createTokenV3 emptyState "a!b##xy" 5 (some ["item"]) 7 =
      ({ emptyState with pendingTokens := mapSet emptyState.pendingTokens (sanitizeTokenNumber "a!b##xy") { tokenNumber := sanitizeTokenNumber "a!b##xy", amount := 5, items := validateItems (some ["item"]), createdAt := 7, status := "pending", paymentId := none, paidAt := none } },
       .success (sanitizeTokenNumber "a!b##xy") 5) :=
  c9_create_token_validation.2.2.2.1 emptyState "a!b##xy" 5 (some ["item"]) 7
    (by decide) (by decide) (by decide)

/- ===== C10 ===== -/

/-- C10 (confirmed): on a fresh captured payment the ingestor keys the
correlation solely by the token number carried in the notes: with a
registered token it copies that token's item list into the new Bill and
marks the token paid, for every payment amount and every registered amount
(both are arbitrary and unconstrained here, so no cross-check occurs);
with no token number in the notes (and no token registered under the
literal name Unknown) a Bill is still created with tokenNumber Unknown and
an empty item list, and the token store is untouched. -/
theorem c10_token_correlation (st : ServerState) (p : PaymentEntity) (now : ℤ)
    (tS dS : String) (hfresh : mapGet st.paidBills p.id = none) :
    (∀ tn td, p.notes_token_number = some tn → tn ≠ "" →
      mapGet st.pendingTokens tn = some td →
      (ingestV1 st p now tS dS).2 = .stored ∧
      mapGet (ingestV1 st p now tS dS).1.paidBills p.id =
        some (mkBillV1 p tn (some td) now tS dS) ∧
      (mkBillV1 p tn (some td) now tS dS).items = td.items ∧
      (mkBillV1 p tn (some td) now tS dS).tokenNumber = tn ∧
      mapGet (ingestV1 st p now tS dS).1.pendingTokens tn =
        some { td with status := "paid", paymentId := some p.id, paidAt := some now }) ∧
    (p.notes_token_number = none → mapGet st.pendingTokens "Unknown" = none →
      (ingestV1 st p now tS dS).2 = .stored ∧
      mapGet (ingestV1 st p now tS dS).1.paidBills p.id =
        some (mkBillV1 p "Unknown" none now tS dS) ∧
      (mkBillV1 p "Unknown" none now tS dS).tokenNumber = "Unknown" ∧
      (mkBillV1 p "Unknown" none now tS dS).items = [] ∧
      (ingestV1 st p now tS dS).1.pendingTokens = st.pendingTokens) := by
  constructor
  · intro tn td hn htn htd
    have hjs : jsOrS p.notes_token_number "Unknown" = tn := by
      rw [hn]
      simp [jsOrS, htn]
    have htd' : mapGet st.pendingTokens (jsOrS p.notes_token_number "Unknown") = some td := by
      rw [hjs]
      exact htd
    rw [ingestV1_fresh_token st p now tS dS td hfresh htd']
    simp only [hjs]
    refine ⟨by trivial, mapGet_mapSet_self _ _ _, by trivial, by trivial, by simp [mapGet_mapUpdate, htd]⟩
  · intro hn hunk
    have hjs : jsOrS p.notes_token_number "Unknown" = "Unknown" := by
      rw [hn]
      rfl
    have hunk' : mapGet st.pendingTokens (jsOrS p.notes_token_number "Unknown") = none := by
      rw [hjs]
      exact hunk
    rw [ingestV1_fresh_noToken st p now tS dS hfresh hunk']
    simp only [hjs]
    refine ⟨by trivial, mapGet_mapSet_self _ _ _, by trivial, by trivial, by trivial⟩

/-- Token record registered for token 42 with amount 999 and one item. -/
def registered42 : PendingToken :=
  { tokenNumber := "42", amount := 999, items := ["dosa"], createdAt := 0,
    status := "pending", paymentId := none, paidAt := none }

/-- State with token 42 registered at amount 999 (the webhook payment pays
12000 minor units — a different amount). -/
def stateWith42 : ServerState :=
  (createTokenV1 emptyState "42" 999 (some ["dosa"]) 0).1

/-- C10 witness: the payment for 12000 minor units is accepted against the
token registered at amount 999 — items are copied and the token is marked
paid with no amount cross-check. -/
theorem c10_token_correlation_witness :
    (ingestV1 stateWith42 payment42 1000 "t" "d").2 = .stored ∧
    (mkBillV1 payment42 "42" (some registered42) 1000 "t" "d").items =
      registered42.items ∧
    mapGet (ingestV1 stateWith42 payment42 1000 "t" "d").1.pendingTokens "42" =
      some { registered42 with status := "paid", paymentId := some payment42.id, paidAt := some 1000 } :=
  ⟨((c10_token_correlation stateWith42 payment42 1000 "t" "d" (by decide)).1
      "42" registered42 (by decide) (by decide) (by decide)).1,
   ((c10_token_correlation stateWith42 payment42 1000 "t" "d" (by decide)).1
      "42" registered42 (by decide) (by decide) (by decide)).2.2.1,
   ((c10_token_correlation stateWith42 payment42 1000 "t" "d" (by decide)).1
      "42" registered42 (by decide) (by decide) (by decide)).2.2.2.2⟩

end ServerSKG
